import Mathlib

/-
Verification development for the FameEX exchange adapter
(src/trade/trader_fameex.js of adamant-tradebot).

Shallow embedding conventions:
- JavaScript objects used as string-keyed dictionaries are modelled as
  insertion-ordered association lists (`List (String × α)`); a property
  write on an existing key replaces the stored value in place, a write on
  a fresh key appends (matching JS object / `Map.set` semantics).
- JS numbers obtained via the unary `+` coercion are modelled as exact
  integers (`Int`); the claims under study are about data flow and the
  exact arithmetic formulas, not floating-point rounding.
- A promise that resolves to `undefined` is `none`; a rolled-up value is
  `some v`.  Operations that can let a JS exception / rejection escape to
  the caller return `Except JsError (Option α)`: `.error e` models an
  escaped throw or rejection, `.ok none` models "resolved to undefined".
- The collaborator `fameEXApiClient` (ExchangeApiClient) is modelled per
  call site by an outcome value: `reject` (the returned promise rejects),
  `malformed` (it fulfils, but with a payload whose shape makes the
  adapter's field accesses throw), or `ok` with a well-shaped payload.
- `getOpenOrders`'s `do/while` loop has no bound in the source; it is
  embedded with an explicit fuel argument whose exhaustion is the outer
  `none` (the loop did not finish within `fuel` iterations).  All claim
  statements hold for every sufficient fuel.
- The helper `utils.getPrecision` and the static network-code table
  (`helpers/cryptos/networks`) are outside the studied source file; they
  enter the embedding as explicit function parameters (`gp`, `nt`), which
  no claim depends on.
-/

namespace TraderFameex

/-- JavaScript-level failures that can escape a public operation:
a `TypeError` raised by a field access on `undefined`, or an awaited
rejection that is not caught. -/
inductive JsError where
  | typeError
  | propagatedRejection
deriving DecidableEq

/-- `String.prototype.toUpperCase`, character by character (the tickers
and network identifiers involved are ASCII). -/
def jsToUpper (s : String) : String := String.mk (s.data.map Char.toUpper)

/-- JS object property write: replace in place when the key exists,
append otherwise (insertion order preserved, as in JS objects and `Map`). -/
def upsert {α : Type} (l : List (String × α)) (k : String) (v : α) : List (String × α) :=
  if l.any (fun p => p.1 == k) then l.map (fun p => if p.1 == k then (k, v) else p)
  else l ++ [(k, v)]

/-- JS object property read: `obj[k]`, `undefined` when absent. -/
def jsGet {α : Type} (l : List (String × α)) (k : String) : Option α :=
  (l.find? (fun p => p.1 == k)).map Prod.snd

/-- `Promise.all` over already-computed per-element outcomes: all must
succeed, otherwise the whole batch fails. -/
def allSome {α : Type} : List (Option α) → Option (List α)
  | [] => some []
  | none :: _ => none
  | some a :: rest => (allSome rest).map (fun l => a :: l)

/-! ### PairCodec: `formatPairName` (source lines 445-456) -/

/-- The delimiter class of the split regex `/[-_\/]/`. -/
def isDelim (c : Char) : Bool := c == '-' || c == '_' || c == '/'

/-- `String.prototype.split` against a single-character-class regex:
split at every delimiter occurrence, keeping empty tokens, and producing
`[""]` on the empty string (JS semantics). -/
def splitDelimsAux : List Char → List (List Char)
  | [] => [[]]
  | c :: cs =>
    let r := splitDelimsAux cs
    if isDelim c then [] :: r
    else
      match r with
      | [] => [[c]]
      | t :: ts => (c :: t) :: ts

def splitDelims (s : String) : List String :=
  (splitDelimsAux s.data).map (fun l => String.mk l)

/-- The record returned by `formatPairName`.  `coin2` is the second token
of the split and is `undefined` (`none`) when fewer than two tokens
result; the derived strings render it through JS template-literal
stringification. -/
structure PairFormatted where
  pair : String
  pairReadable : String
  pairPlain : String
  coin1 : String
  coin2 : Option String
deriving DecidableEq

/-- JS template-literal rendering of a possibly-`undefined` string. -/
def jsShow (o : Option String) : String := o.getD "undefined"

/-- Source `formatPairName`: uppercase, split on `-`/`_`/`/`, destructure
the first two tokens.  The split always yields at least one token, so
`coin1` is total; `coin2` may be `undefined`.  No error is ever raised for
a string input. -/
def formatPairName (p : String) : PairFormatted :=
  let tokens := splitDelims (jsToUpper p)
  let coin1 := tokens.headD ""
  let coin2 := tokens[1]?
  { pair := coin1 ++ "/" ++ jsShow coin2
    pairReadable := coin1 ++ "/" ++ jsShow coin2
    pairPlain := coin1 ++ "_" ++ jsShow coin2
    coin1 := coin1
    coin2 := coin2 }

/-! ### OrderCodeMaps (source lines 12-44, 463-487) -/

structure OrderStatesT where
  new : List Int
  partiallyFilled : Int
  filled : Int
  cancelled : List Int
  uncompleted : Int
  completedOrCancelled : Int

def orderStates : OrderStatesT :=
  { new := [1, 2]
    partiallyFilled := 3
    filled := 4
    cancelled := [5, 6]
    uncompleted := 7
    completedOrCancelled := 9 }

structure OrderStatusesT where
  new : String
  partFilled : String
  filled : String
  cancelled : String
  unknown : String

def orderStatuses : OrderStatusesT :=
  { new := "new"
    partFilled := "part_filled"
    filled := "filled"
    cancelled := "cancelled"
    unknown := "unknown" }

structure OrderSidesT where
  buy : Int
  sell : Int

def orderSides : OrderSidesT := { buy := 1, sell := 2 }

def orderMaxPageSize : Nat := 500

/-- Source `orderTypesMap` object lookup: `orderTypesMap[orderType]`. -/
def orderTypesMap (t : Int) : Option String :=
  if t = 1 then some "limit"
  else if t = 2 then some "market"
  else if t = 3 then some "take_profit_and_stop_loss"
  else if t = 4 then some "tracking_order"
  else if t = 5 then some "maker_only"
  else none

/-- Source `formatOrderType`: `orderTypesMap[orderType] || 'unknown'`. -/
def formatOrderType (t : Int) : String := (orderTypesMap t).getD "unknown"

/-- Source `formatOrderStatus`: the chain of `includes` / equality checks
falling through to `'unknown'`. -/
def formatOrderStatus (orderState : Int) : String :=
  if orderStates.new.contains orderState then orderStatuses.new
  else if orderState = orderStates.partiallyFilled then orderStatuses.partFilled
  else if orderState = orderStates.filled then orderStatuses.filled
  else if orderStates.cancelled.contains orderState then orderStatuses.cancelled
  else orderStatuses.unknown

/-! ### MetadataCache: currencies (source lines 69-135) -/

/-- One merged currency record as built by `getCurrencies` (the fields the
source sets to a varying value; fields hard-wired to `undefined`/`null`
in the source carry no information and are omitted). -/
structure Currency where
  symbol : String
  name : String
  minWithdraw : Int
  maxWithdraw : Int
  networks : Option (List String)
  withdrawEnabled : Bool
  depositEnabled : Bool
  id : Nat
deriving DecidableEq

/-- One entry of the `currencies()` payload (`currenciesData.data`). -/
structure VendorCurrency where
  name : String
  min_withdraw : Int
  max_withdraw : Int
  can_withdraw : Bool
  can_deposit : Bool
  unified_cryptoasset_id : Nat
deriving DecidableEq

/-- One entry of `currenciesWithNetworks.data.list`; `currencyDetail` is
modelled by its key list (the source only reads `Object.keys`). -/
structure VendorNetworkEntry where
  currency : String
  currencyDetail : List String
deriving DecidableEq

/-- Source `formatNetworkName`, with the external network table passed in
as `nt`: `networks[network.toUpperCase()]?.code ?? network`. -/
def formatNetworkName (nt : String → Option String) (network : String) : String :=
  (nt (jsToUpper network)).getD network

/-- The `reduce` building `networksByCurrency` (a JS `Map`). -/
def networksByCurrency (nt : String → Option String) (list : List VendorNetworkEntry) :
    List (String × List String) :=
  list.foldl
    (fun acc d => upsert acc (jsToUpper d.currency) (d.currencyDetail.map (formatNetworkName nt)))
    []

/-- The `for (const coin in currencies)` loop body of `getCurrencies`:
merge the base currency list with the per-currency network lists into the
`result` object. -/
def mergeCurrencies (nt : String → Option String) (currencies : List VendorCurrency)
    (networkList : List VendorNetworkEntry) : List (String × Currency) :=
  let nbc := networksByCurrency nt networkList
  currencies.foldl
    (fun result currency =>
      upsert result (jsToUpper currency.name)
        { symbol := jsToUpper currency.name
          name := jsToUpper currency.name
          minWithdraw := currency.min_withdraw
          maxWithdraw := currency.max_withdraw
          networks := jsGet nbc (jsToUpper currency.name)
          withdrawEnabled := currency.can_withdraw
          depositEnabled := currency.can_deposit
          id := currency.unified_cryptoasset_id })
    []

/-! ### MetadataCache: markets (source lines 142-194) -/

/-- One market record as built by `getMarkets` (constant-`null` fields
omitted).  Precisions are produced by the external `utils.getPrecision`,
passed in as `gp`. -/
structure Market where
  pairReadable : String
  pairPlain : String
  coin1 : String
  coin2 : Option String
  coin1Decimals : Int
  coin2Decimals : Int
  coin1Precision : Int
  coin2Precision : Int
deriving DecidableEq

/-- One entry of the `markets()` payload (`markets.data`). -/
structure VendorMarket where
  pair : String
  amountPrecision : Int
  pricePrecision : Int
deriving DecidableEq

/-- The `reduce` inside `getMarkets` building the `result` object keyed by
`pairReadable`. -/
def marketsReduce (gp : Int → Int) (ms : List VendorMarket) : List (String × Market) :=
  ms.foldl
    (fun acc market =>
      let pr := formatPairName market.pair
      upsert acc pr.pairReadable
        { pairReadable := pr.pairReadable
          pairPlain := pr.pairPlain
          coin1 := pr.coin1
          coin2 := pr.coin2
          coin1Decimals := market.amountPrecision
          coin2Decimals := market.pricePrecision
          coin1Precision := gp market.amountPrecision
          coin2Precision := gp market.pricePrecision })
    []

/-- The module-wide mutable state (`module.exports.exchangeCurrencies`,
`gettingCurrencies`, `exchangeMarkets`, `gettingMarkets`).  A snapshot is
`none` until first populated; the source only ever assigns a non-empty
object, and any JS object is truthy, so truthiness of the snapshot is
`Option.isSome`. -/
structure TraderState where
  exchangeCurrencies : Option (List (String × Currency))
  gettingCurrencies : Bool
  exchangeMarkets : Option (List (String × Market))
  gettingMarkets : Bool
deriving DecidableEq

def initialTraderState : TraderState :=
  { exchangeCurrencies := none
    gettingCurrencies := false
    exchangeMarkets := none
    gettingMarkets := false }

/-- What the synchronous prefix of `getCurrencies` does before any network
activity: bail out with no value (`return;`), answer from the snapshot, or
set the in-flight flag and start the fetch. -/
inductive CurrenciesSync where
  | noResult
  | cached (v : Option Currency)
  | fetching
deriving DecidableEq

/-- Source `getCurrencies` lines 70-73: the in-flight check, the cache-hit
check (`exchangeCurrencies && !forceUpdate`, returning
`exchangeCurrencies[coin]`, which is `undefined` when `coin` is omitted
since snapshot keys are uppercase tickers), and the flag set.  -/
def getCurrenciesStart (st : TraderState) (coin : Option String) (forceUpdate : Bool) :
    TraderState × CurrenciesSync :=
  if st.gettingCurrencies then (st, .noResult)
  else if st.exchangeCurrencies.isSome && !forceUpdate then
    (st, .cached (coin.bind (fun c => jsGet (st.exchangeCurrencies.getD []) c)))
  else ({ st with gettingCurrencies := true }, .fetching)

/-- Collaborator outcome for the `Promise.all` of `currencies()` and
`currenciesWithNetwork()`: both fulfil with well-shaped payloads, or the
combined promise rejects, or a fulfilled payload's shape makes the
processing in the `try` block throw (caught there). -/
inductive CurrenciesFetchOutcome where
  | reject
  | processingError
  | ok (currencies : List VendorCurrency) (networkList : List VendorNetworkEntry)
deriving DecidableEq

/-- Source `getCurrencies` lines 80-133: the `.then`-handler with its
`try`/`catch`, the `.catch`, and the `.finally` clearing the flag.  The
second component is the promise resolution (`none` = `undefined`). -/
def getCurrenciesResolve (nt : String → Option String) (st : TraderState)
    (outcome : CurrenciesFetchOutcome) : TraderState × Option (List (String × Currency)) :=
  match outcome with
  | .reject => ({ st with gettingCurrencies := false }, none)
  | .processingError => ({ st with gettingCurrencies := false }, none)
  | .ok currencies networkList =>
    let result := mergeCurrencies nt currencies networkList
    if 0 < result.length then
      ({ st with exchangeCurrencies := some result, gettingCurrencies := false }, some result)
    else
      ({ st with gettingCurrencies := false }, some result)

/-- The caller-visible value of a complete `getCurrencies` call: JS
`undefined`, a single snapshot entry, or the full merged map. -/
inductive GetCurrenciesRet where
  | undef
  | coinInfo (c : Currency)
  | currenciesMap (m : List (String × Currency))
deriving DecidableEq

/-- A whole `getCurrencies` call: the synchronous prefix followed, on the
fetch path, by the resolution of the upstream fetch with the given
outcome. -/
def getCurrencies (nt : String → Option String) (st : TraderState) (coin : Option String)
    (forceUpdate : Bool) (outcome : CurrenciesFetchOutcome) : TraderState × GetCurrenciesRet :=
  match getCurrenciesStart st coin forceUpdate with
  | (st1, .noResult) => (st1, .undef)
  | (st1, .cached none) => (st1, .undef)
  | (st1, .cached (some c)) => (st1, .coinInfo c)
  | (st1, .fetching) =>
    match getCurrenciesResolve nt st1 outcome with
    | (st2, none) => (st2, .undef)
    | (st2, some m) => (st2, .currenciesMap m)

inductive MarketsSync where
  | noResult
  | cached (v : Option Market)
  | fetching
deriving DecidableEq

/-- Source `getMarkets` lines 145-148: in-flight check, cache-hit check
(`exchangeMarkets[pair ? formatPairName(pair).pairReadable : pair]`; a
falsy `pair` — omitted or the empty string — looks up a key that cannot
be present), and the flag set. -/
def getMarketsStart (st : TraderState) (pair : Option String) : TraderState × MarketsSync :=
  if st.gettingMarkets then (st, .noResult)
  else
    match st.exchangeMarkets with
    | some m =>
      (st, .cached
        (match pair with
         | some p => if p = "" then none else jsGet m (formatPairName p).pairReadable
         | none => none))
    | none => ({ st with gettingMarkets := true }, .fetching)

inductive MarketsFetchOutcome where
  | reject
  | processingError
  | ok (ms : List VendorMarket)
deriving DecidableEq

/-- Source `getMarkets` lines 151-193: `.then` with `try`/`catch`,
`.catch`, `.finally`. -/
def getMarketsResolve (gp : Int → Int) (st : TraderState) (outcome : MarketsFetchOutcome) :
    TraderState × Option (List (String × Market)) :=
  match outcome with
  | .reject => ({ st with gettingMarkets := false }, none)
  | .processingError => ({ st with gettingMarkets := false }, none)
  | .ok ms =>
    let result := marketsReduce gp ms
    if 0 < result.length then
      ({ st with exchangeMarkets := some result, gettingMarkets := false }, some result)
    else
      ({ st with gettingMarkets := false }, some result)

inductive GetMarketsRet where
  | undef
  | marketInfo (m : Market)
  | marketsMap (m : List (String × Market))
deriving DecidableEq

/-- A whole `getMarkets` call. -/
def getMarkets (gp : Int → Int) (st : TraderState) (pair : Option String)
    (outcome : MarketsFetchOutcome) : TraderState × GetMarketsRet :=
  match getMarketsStart st pair with
  | (st1, .noResult) => (st1, .undef)
  | (st1, .cached none) => (st1, .undef)
  | (st1, .cached (some m)) => (st1, .marketInfo m)
  | (st1, .fetching) =>
    match getMarketsResolve gp st1 outcome with
    | (st2, none) => (st2, .undef)
    | (st2, some m) => (st2, .marketsMap m)

/-! ### getBalances (source lines 260-291) -/

structure CryptoBalance where
  currency : String
  available : Int
  hold : Int
  total : Int
deriving DecidableEq

/-- One entry of the `getBalances()` payload's `data` array.  A wallet
whose `list` property is absent is `list := none` (reading it does not
throw; only using it as an array later does, inside the `try`). -/
structure Wallet where
  walletType : String
  list : Option (List CryptoBalance)
deriving DecidableEq

/-- Collaborator outcome for `fameEXApiClient.getBalances()`:
`malformed` fulfils with a payload whose `data` is not an array, so the
`.filter` access on line 272 (outside any `try`) throws. -/
inductive BalancesResp where
  | reject
  | malformed
  | ok (data : List Wallet)
deriving DecidableEq

structure BalanceEntry where
  code : String
  free : Int
  freezed : Int
  total : Int
deriving DecidableEq

/-- Source `getBalances`.  The API rejection is caught (lines 265-270);
the spot-partition selection `balances.data.filter(...)[0].list` on line
272 is outside both `try` blocks, so when no wallet has
`walletType === 'spot'` the `.list` access on `undefined` throws and the
whole operation rejects; processing errors inside the second `try`
(including `spotWallet` being `undefined`) resolve to `undefined`. -/
def getBalances (resp : BalancesResp) (nonzero : Bool) :
    Except JsError (Option (List BalanceEntry)) :=
  match resp with
  | .reject => .ok none
  | .malformed => .error .typeError
  | .ok data =>
    match (data.filter (fun w => w.walletType == "spot")).head? with
    | none => .error .typeError
    | some w =>
      match w.list with
      | none => .ok none
      | some spotWallet =>
        let result := spotWallet.map
          (fun crypto =>
            { code := jsToUpper crypto.currency
              free := crypto.available
              freezed := crypto.hold
              total := crypto.total })
        if nonzero then .ok (some (result.filter (fun c => c.free != 0 || c.freezed != 0)))
        else .ok (some result)

/-! ### OrderReconciler (source lines 301-427) -/

/-- One entry of a `getOrders` payload's `data.orders` array. -/
structure RawOrder where
  orderId : String
  side : Int
  orderType : Int
  state : Int
  createTime : Int
  money : Int
  filledAmount : Int
deriving DecidableEq

structure Trade where
  price : Int
deriving DecidableEq

/-- The `data` object of a `getTransactionDetails` response. -/
structure TxData where
  total : Nat
  trades : List Trade
deriving DecidableEq

/-- Collaborator outcome for one `getTransactionDetails` call. -/
inductive TxResp where
  | reject
  | malformed
  | ok (d : TxData)
deriving DecidableEq

/-- The canonical order record built by `getOpenOrdersPage`. -/
structure Order where
  orderId : String
  symbol : String
  symbolPlain : String
  price : Int
  side : String
  type : String
  timestamp : Int
  amount : Int
  amountExecuted : Int
  amountLeft : Int
  status : String
deriving DecidableEq

/-- The per-order enrichment closure inside `getOpenOrdersPage` (source
lines 365-387).  A rejected lookup, a malformed payload, and an empty
`trades` array (making `transactionDetails` `undefined`, so that
`.price` throws) all happen inside the surrounding `try`, hence all three
make the order's enrichment fail (`none`), failing the whole page. -/
def enrichOrder (pair : PairFormatted) (tx : String → TxResp) (order : RawOrder) :
    Option Order :=
  match tx order.orderId with
  | .reject => none
  | .malformed => none
  | .ok d =>
    match d.trades.head? with
    | none => none
    | some t =>
      some
        { orderId := order.orderId
          symbol := pair.pairReadable
          symbolPlain := pair.pairPlain
          price := t.price
          side := if order.side = orderSides.buy then "buy" else "sell"
          type := formatOrderType order.orderType
          timestamp := order.createTime
          amount := order.money
          amountExecuted := order.filledAmount
          amountLeft := order.filledAmount - order.money
          status := formatOrderStatus order.state }

/-- Collaborator outcome for one `getOrders` call: `malformed` fulfils
with a payload on which the spread `...resp.data.orders` (source lines
357-362, outside any `try`) throws. -/
inductive OrdersResp where
  | reject
  | malformed
  | ok (orders : List RawOrder)
deriving DecidableEq

def OrdersResp.isReject : OrdersResp → Bool
  | .reject => true
  | _ => false

def OrdersResp.isMalformed : OrdersResp → Bool
  | .malformed => true
  | _ => false

/-- Source `getOpenOrdersPage`: four partitioned `getOrders` queries under
`Promise.all` (a single rejection rejects the batch and is caught,
resolving `undefined`); the four fulfilled results are flattened in the
fixed order uncompleted-buy, uncompleted-sell, completed-buy,
completed-sell — but that flattening happens outside any `try`, so a
fulfilled-yet-malformed payload throws to the caller; per-order
enrichment failures are caught and resolve the page to `undefined`. -/
def getOpenOrdersPage (pair : PairFormatted) (ub us cb cs : OrdersResp)
    (tx : String → TxResp) : Except JsError (Option (List Order)) :=
  if ub.isReject || us.isReject || cb.isReject || cs.isReject then .ok none
  else
    match ub, us, cb, cs with
    | .ok a, .ok b, .ok c, .ok d =>
      .ok (allSome ((a ++ b ++ c ++ d).map (enrichOrder pair tx)))
    | _, _, _, _ => .error .typeError

/-- The `do { ... } while (allOrders.length < limit)` loop of
`getOpenOrders`, with explicit fuel; the result pairs the loop's value
(`none` = the body returned `undefined`) with the number of
`getOpenOrdersPage` calls issued.  The outer `none` means the loop did
not finish within `fuel` iterations (the source loop is unbounded). -/
def getOpenOrdersLoop (page : Nat → Except JsError (Option (List Order))) (limit : Nat) :
    Nat → Nat → List Order → Nat → Option (Except JsError (Option (List Order) × Nat))
  | 0, _, _, _ => none
  | fuel + 1, pageNum, allOrders, calls =>
    match page pageNum with
    | .error e => some (.error e)
    | .ok none => some (.ok (none, calls + 1))
    | .ok (some ordersInfo) =>
      let acc := allOrders ++ ordersInfo
      if acc.length < limit then
        getOpenOrdersLoop page limit fuel (pageNum + 1) acc (calls + 1)
      else some (.ok (some acc, calls + 1))

/-- Source `getOpenOrders`: the initial `getTransactionDetails` on line
409 is awaited without any `try`/`catch`, so a rejection or a payload
without `data` escapes to the caller; otherwise the vendor-reported
`total` becomes `limit` and the `do/while` page loop runs starting at
`pageNum = 1` with an empty accumulator. -/
def getOpenOrders (_pair : String) (initialTx : TxResp)
    (page : Nat → Except JsError (Option (List Order))) (fuel : Nat) :
    Option (Except JsError (Option (List Order) × Nat)) :=
  match initialTx with
  | .reject => some (.error .propagatedRejection)
  | .malformed => some (.error .typeError)
  | .ok d => getOpenOrdersLoop page d.total fuel 1 [] 0

/-- `getOpenOrders` with its pages produced by `getOpenOrdersPage` on the
normalized pair, as in the source. -/
def getOpenOrdersFull (pairStr : String) (initialTx : TxResp)
    (queries : Nat → OrdersResp × OrdersResp × OrdersResp × OrdersResp)
    (tx : String → TxResp) (fuel : Nat) :
    Option (Except JsError (Option (List Order) × Nat)) :=
  let coinPair := formatPairName pairStr
  getOpenOrders pairStr initialTx
    (fun n =>
      match queries n with
      | (ub, us, cb, cs) => getOpenOrdersPage coinPair ub us cb cs tx)
    fuel

/-! ### Call bursts for the single-flight claim -/

/-- `n` sequential `getCurrencies(undefined, false)` calls, none of whose
fetches has resolved yet; counts how many upstream fetch pairs were
issued. -/
def currenciesBurst : Nat → TraderState → Nat × TraderState
  | 0, st => (0, st)
  | n + 1, st =>
    let s := getCurrenciesStart st none false
    let rest := currenciesBurst n s.1
    ((match s.2 with | .fetching => 1 | _ => 0) + rest.1, rest.2)

/-- `n` sequential `getMarkets(undefined)` calls before any resolution. -/
def marketsBurst : Nat → TraderState → Nat × TraderState
  | 0, st => (0, st)
  | n + 1, st =>
    let s := getMarketsStart st none
    let rest := marketsBurst n s.1
    ((match s.2 with | .fetching => 1 | _ => 0) + rest.1, rest.2)

set_option maxRecDepth 8000

/-! ### Helper lemmas -/

theorem allSome_append {α : Type} (xs ys : List (Option α)) (lx ly : List α)
    (hx : allSome xs = some lx) (hy : allSome ys = some ly) :
    allSome (xs ++ ys) = some (lx ++ ly) := by
  induction xs generalizing lx with
  | nil =>
    simp [allSome] at hx
    subst hx
    simpa using hy
  | cons a as ih =>
    cases a with
    | none => simp [allSome] at hx
    | some v =>
      simp only [allSome] at hx
      obtain ⟨l1, hl1, hlx⟩ := Option.map_eq_some'.mp hx
      subst hlx
      simp [allSome, ih l1 hl1]

theorem allSome_mem {α : Type} {xs : List (Option α)} {l : List α}
    (h : allSome xs = some l) : ∀ y ∈ l, some y ∈ xs := by
  induction xs generalizing l with
  | nil =>
    simp [allSome] at h
    subst h
    simp
  | cons a as ih =>
    cases a with
    | none => simp [allSome] at h
    | some v =>
      simp only [allSome] at h
      obtain ⟨l1, hl1, hlx⟩ := Option.map_eq_some'.mp h
      subst hlx
      intro y hy
      rcases List.mem_cons.mp hy with rfl | hy2
      · exact List.mem_cons_self _ _
      · exact List.mem_cons_of_mem _ (ih hl1 y hy2)

theorem getOpenOrdersLoop_no_error (page : Nat → Except JsError (Option (List Order)))
    (limit : Nat) (hpage : ∀ n e, page n ≠ .error e) :
    ∀ fuel pageNum acc calls r,
      getOpenOrdersLoop page limit fuel pageNum acc calls = some r → ∃ v, r = .ok v := by
  intro fuel
  induction fuel with
  | zero =>
    intro pageNum acc calls r h
    simp [getOpenOrdersLoop] at h
  | succ k ih =>
    intro pageNum acc calls r h
    cases hp : page pageNum with
    | error e => exact absurd hp (hpage _ _)
    | ok v =>
      simp only [getOpenOrdersLoop, hp] at h
      cases v with
      | none => exact ⟨_, (Option.some.inj h).symm⟩
      | some ordersInfo =>
        dsimp only at h
        by_cases hc : (acc ++ ordersInfo).length < limit
        · rw [if_pos hc] at h
          exact ih _ _ _ _ h
        · rw [if_neg hc] at h
          exact ⟨_, (Option.some.inj h).symm⟩

theorem currenciesBurst_stable (n : Nat) (st : TraderState) (h : st.gettingCurrencies = true) :
    currenciesBurst n st = (0, st) := by
  induction n with
  | zero => rfl
  | succ k ih => simp [currenciesBurst, getCurrenciesStart, h, ih]

theorem marketsBurst_stable (n : Nat) (st : TraderState) (h : st.gettingMarkets = true) :
    marketsBurst n st = (0, st) := by
  induction n with
  | zero => rfl
  | succ k ih => simp [marketsBurst, getMarketsStart, h, ih]

/-! ### Concrete fixtures used by witnesses -/

def demoOrder : Order :=
  { orderId := "demo", symbol := "BTC/USDT", symbolPlain := "BTC_USDT", price := 1,
    side := "buy", type := "limit", timestamp := 0, amount := 1, amountExecuted := 0,
    amountLeft := -1, status := "new" }

def rawW : RawOrder :=
  { orderId := "o1", side := 1, orderType := 1, state := 2, createTime := 11,
    money := 10, filledAmount := 4 }

def txW : String → TxResp := fun _ => .ok { total := 1, trades := [{ price := 7 }] }

def pairW : PairFormatted := formatPairName "BTC/USDT"

def ordW : Order :=
  { orderId := "o1", symbol := "BTC/USDT", symbolPlain := "BTC_USDT", price := 7,
    side := "buy", type := "limit", timestamp := 11, amount := 10, amountExecuted := 4,
    amountLeft := -6, status := "new" }

def cBTCW : Currency :=
  { symbol := "BTC", name := "BTC", minWithdraw := 0, maxWithdraw := 100, networks := none,
    withdrawEnabled := true, depositEnabled := true, id := 1 }

def vBTCW : VendorCurrency :=
  { name := "btc", min_withdraw := 1, max_withdraw := 100, can_withdraw := true,
    can_deposit := true, unified_cryptoasset_id := 1 }

def stSnapshotW : TraderState :=
  { exchangeCurrencies := some [("BTC", cBTCW)], gettingCurrencies := false,
    exchangeMarkets := none, gettingMarkets := false }

/-! ### C7 -/

/-- Claim C7: `OrderCodeMaps.mapStatus` (source `formatOrderStatus`) is total:
codes 1 and 2 map to `new`, 3 to `partiallyFilled`, 4 to `filled`, 5 and 6
to `cancelled`, and every other integer — including the lifecycle-bucket
codes 7 and 9 — maps to `unknown`; the result is always one of the five
canonical statuses and no input ever throws. -/
theorem formatOrderStatus_total (s : Int) :
    ((s = 1 ∨ s = 2) → formatOrderStatus s = orderStatuses.new)
    ∧ (s = 3 → formatOrderStatus s = orderStatuses.partFilled)
    ∧ (s = 4 → formatOrderStatus s = orderStatuses.filled)
    ∧ ((s = 5 ∨ s = 6) → formatOrderStatus s = orderStatuses.cancelled)
    ∧ (s ≠ 1 → s ≠ 2 → s ≠ 3 → s ≠ 4 → s ≠ 5 → s ≠ 6 →
        formatOrderStatus s = orderStatuses.unknown)
    ∧ (formatOrderStatus s = orderStatuses.new ∨ formatOrderStatus s = orderStatuses.partFilled
        ∨ formatOrderStatus s = orderStatuses.filled
        ∨ formatOrderStatus s = orderStatuses.cancelled
        ∨ formatOrderStatus s = orderStatuses.unknown) := by
  refine ⟨?_, ?_, ?_, ?_, ?_, ?_⟩
  · rintro (rfl | rfl) <;> decide
  · rintro rfl; decide
  · rintro rfl; decide
  · rintro (rfl | rfl) <;> decide
  · intro h1 h2 h3 h4 h5 h6
    simp [formatOrderStatus, orderStates, orderStatuses, h1, h2, h3, h4, h5, h6]
  · unfold formatOrderStatus
    split_ifs <;> simp

/-- Witness for C7 at concrete codes 2 and 7. -/
theorem formatOrderStatus_witness :
    formatOrderStatus 2 = orderStatuses.new ∧ formatOrderStatus 7 = orderStatuses.unknown :=
  ⟨(formatOrderStatus_total 2).1 (Or.inr rfl),
   (formatOrderStatus_total 7).2.2.2.2.1 (by decide) (by decide) (by decide) (by decide)
     (by decide) (by decide)⟩

/-! ### C4 (corrected) -/

/-- Claim C4 (amended): `PairCodec.normalize` (source `formatPairName`)
uppercases the input and splits it on `-`, `_` or `/`; `coin1` is the
first token and `coin2` the second when present.  Contrary to the claim,
no `MalformedPairError` exists: with fewer than two tokens `coin2` is
`undefined` and the derived strings embed the text `undefined`; extra
tokens beyond the second are silently ignored; no string input fails. -/
theorem formatPairName_token_behavior :
    (∀ p t1 t2 rest, splitDelims (jsToUpper p) = t1 :: t2 :: rest →
      formatPairName p
        = { pair := t1 ++ "/" ++ t2, pairReadable := t1 ++ "/" ++ t2,
            pairPlain := t1 ++ "_" ++ t2, coin1 := t1, coin2 := some t2 })
    ∧ (∀ p t1, splitDelims (jsToUpper p) = [t1] →
      formatPairName p
        = { pair := t1 ++ "/" ++ "undefined", pairReadable := t1 ++ "/" ++ "undefined",
            pairPlain := t1 ++ "_" ++ "undefined", coin1 := t1, coin2 := none }) := by
  constructor
  · intro p t1 t2 rest h
    simp [formatPairName, h, jsShow]
  · intro p t1 h
    simp [formatPairName, h, jsShow]

/-- Counterexample to claim C4 as stated: a three-token input and a
one-token input both produce a normal result instead of failing with
`MalformedPairError`. -/
theorem formatPairName_no_failure_counterexample :
    formatPairName "BTC-USDT-NONSENSE"
      = { pair := "BTC/USDT", pairReadable := "BTC/USDT", pairPlain := "BTC_USDT",
          coin1 := "BTC", coin2 := some "USDT" }
    ∧ formatPairName "btc"
      = { pair := "BTC/undefined", pairReadable := "BTC/undefined",
          pairPlain := "BTC_undefined", coin1 := "BTC", coin2 := none } :=
  ⟨by decide, by decide⟩

/-- Witness for C4 at the concrete input "btc-usdt". -/
theorem formatPairName_token_witness :
    formatPairName "btc-usdt"
      = { pair := "BTC" ++ "/" ++ "USDT", pairReadable := "BTC" ++ "/" ++ "USDT",
          pairPlain := "BTC" ++ "_" ++ "USDT", coin1 := "BTC", coin2 := some "USDT" } :=
  formatPairName_token_behavior.1 "btc-usdt" "BTC" "USDT" [] (by decide)

/-! ### C2 (corrected) -/

/-- Claim C2 (amended): `getCurrencies` is asymmetric between its two
success paths.  With a populated snapshot, no in-flight refresh and
`forceUpdate = false` it answers synchronously from the snapshot: the
entry for `coin` when `coin` is given — but, contrary to the claim,
`undefined` (not the full map) when `coin` is omitted, because the source
returns `exchangeCurrencies[coin]` unconditionally.  When it instead
performs the upstream fetch and the merged result is non-empty, it
replaces the snapshot wholesale and resolves with the full merged map,
never narrowed by `coin`. -/
theorem getCurrencies_cache_fetch_asymmetry :
    (∀ nt st m c outcome, st.gettingCurrencies = false → st.exchangeCurrencies = some m →
      getCurrencies nt st (some c) false outcome
        = (st, match jsGet m c with
               | some cur => .coinInfo cur
               | none => .undef))
    ∧ (∀ nt st m outcome, st.gettingCurrencies = false → st.exchangeCurrencies = some m →
      getCurrencies nt st none false outcome = (st, .undef))
    ∧ (∀ nt st coin fu cs nl, st.gettingCurrencies = false →
      st.exchangeCurrencies.isSome = false ∨ fu = true →
      mergeCurrencies nt cs nl ≠ [] →
      getCurrencies nt st coin fu (.ok cs nl)
        = ({ st with exchangeCurrencies := some (mergeCurrencies nt cs nl),
                     gettingCurrencies := false },
           .currenciesMap (mergeCurrencies nt cs nl))) := by
  refine ⟨?_, ?_, ?_⟩
  · intro nt st m c outcome h1 h2
    cases hj : jsGet m c with
    | none => simp [getCurrencies, getCurrenciesStart, h1, h2, hj]
    | some cur => simp [getCurrencies, getCurrenciesStart, h1, h2, hj]
  · intro nt st m outcome h1 h2
    simp [getCurrencies, getCurrenciesStart, h1, h2]
  · intro nt st coin fu cs nl h1 h2 h3
    have hlen : 0 < (mergeCurrencies nt cs nl).length := List.length_pos.mpr h3
    rcases h2 with h2 | h2
    · simp [getCurrencies, getCurrenciesStart, getCurrenciesResolve, h1, h2, hlen]
    · subst h2
      simp [getCurrencies, getCurrenciesStart, getCurrenciesResolve, h1, hlen]

/-- Counterexample to claim C2 as stated: on the cache-hit path with
`coin` omitted, `getCurrencies` returns `undefined`, not the full
snapshot map. -/
theorem getCurrencies_cacheHit_no_coin_counterexample :
    (getCurrencies (fun _ => none) stSnapshotW none false .reject).2 = GetCurrenciesRet.undef
    ∧ GetCurrenciesRet.undef
        ≠ GetCurrenciesRet.currenciesMap [("BTC", cBTCW)] :=
  ⟨rfl, by decide⟩

/-- Witness for C2: a concrete fetch-path call replacing the snapshot
with a one-entry merged map. -/
theorem getCurrencies_asymmetry_witness :
    getCurrencies (fun _ => none) initialTraderState none false (.ok [vBTCW] [])
      = ({ initialTraderState with
            exchangeCurrencies := some (mergeCurrencies (fun _ => none) [vBTCW] []),
            gettingCurrencies := false },
         .currenciesMap (mergeCurrencies (fun _ => none) [vBTCW] [])) :=
  getCurrencies_cache_fetch_asymmetry.2.2 (fun _ => none) initialTraderState none false
    [vBTCW] [] rfl (Or.inl rfl) (by decide)

/-! ### C5 (confirmed) -/

/-- Claim C5: at most one refresh per catalog is in flight.  When the
currencies (resp. markets) in-flight flag is set, a `getCurrencies`
(resp. `getMarkets`) call returns immediately with no result
(`undefined`), issues no upstream fetch, and leaves the state unchanged;
consequently `n ≥ 1` back-to-back calls arriving before the first
resolution issue exactly one upstream fetch (one `Promise.all` pair for
currencies, one `markets()` call for markets). -/
theorem single_flight_refresh :
    (∀ st coin fu, st.gettingCurrencies = true →
      getCurrenciesStart st coin fu = (st, .noResult))
    ∧ (∀ nt st coin fu outcome, st.gettingCurrencies = true →
      getCurrencies nt st coin fu outcome = (st, .undef))
    ∧ (∀ st p, st.gettingMarkets = true → getMarketsStart st p = (st, .noResult))
    ∧ (∀ gp st p outcome, st.gettingMarkets = true → getMarkets gp st p outcome = (st, .undef))
    ∧ (∀ n, 1 ≤ n → currenciesBurst n initialTraderState
        = (1, { initialTraderState with gettingCurrencies := true }))
    ∧ (∀ n, 1 ≤ n → marketsBurst n initialTraderState
        = (1, { initialTraderState with gettingMarkets := true })) := by
  refine ⟨?_, ?_, ?_, ?_, ?_, ?_⟩
  · intro st coin fu h
    simp [getCurrenciesStart, h]
  · intro nt st coin fu outcome h
    simp [getCurrencies, getCurrenciesStart, h]
  · intro st p h
    simp [getMarketsStart, h]
  · intro gp st p outcome h
    simp [getMarkets, getMarketsStart, h]
  · intro n hn
    obtain ⟨k, rfl⟩ : ∃ k, n = k + 1 := ⟨n - 1, by omega⟩
    rw [currenciesBurst]
    have h1 : getCurrenciesStart initialTraderState none false
        = ({ initialTraderState with gettingCurrencies := true }, .fetching) := rfl
    rw [h1, currenciesBurst_stable k _ rfl]
    rfl
  · intro n hn
    obtain ⟨k, rfl⟩ : ∃ k, n = k + 1 := ⟨n - 1, by omega⟩
    rw [marketsBurst]
    have h1 : getMarketsStart initialTraderState none
        = ({ initialTraderState with gettingMarkets := true }, .fetching) := rfl
    rw [h1, marketsBurst_stable k _ rfl]
    rfl

/-- Witness for C5: three back-to-back calls from the empty state issue
exactly one upstream fetch. -/
theorem single_flight_witness :
    currenciesBurst 3 initialTraderState
      = (1, { initialTraderState with gettingCurrencies := true }) :=
  single_flight_refresh.2.2.2.2.1 3 (by norm_num)

/-! ### C10 (confirmed) -/

/-- Claim C10: a populated snapshot is never replaced by an empty one.
When the merged fetch result has zero entries, `getCurrencies` and
`getMarkets` leave `exchangeCurrencies` / `exchangeMarkets` untouched
(the assignment is guarded by a non-empty check), still resolve the call
with the empty map (`some []`, not `undefined`), and still clear the
in-flight flag. -/
theorem nonempty_snapshot_guard :
    (∀ nt st cs nl, mergeCurrencies nt cs nl = [] →
      getCurrenciesResolve nt st (.ok cs nl)
        = ({ st with gettingCurrencies := false }, some []))
    ∧ (∀ gp st ms, marketsReduce gp ms = [] →
      getMarketsResolve gp st (.ok ms) = ({ st with gettingMarkets := false }, some [])) := by
  constructor
  · intro nt st cs nl h
    simp [getCurrenciesResolve, h]
  · intro gp st ms h
    simp [getMarketsResolve, h]

/-- Witness for C10: an empty currencies payload resolves `some []` and
keeps the snapshot. -/
theorem nonempty_guard_witness :
    getCurrenciesResolve (fun _ => none) initialTraderState (.ok [] [])
      = ({ initialTraderState with gettingCurrencies := false }, some []) :=
  nonempty_snapshot_guard.1 (fun _ => none) initialTraderState [] [] rfl

/-! ### C1 (corrected) -/

/-- Claim C1 (amended): `getCurrencies` and `getMarkets` resolve to
`undefined` on any collaborator rejection or processing error and never
throw; `getBalances` resolves `undefined` on a rejected API call but
throws a `TypeError` when the fulfilled wallet list contains no `spot`
partition (the partition access is outside both `try` blocks);
`getOpenOrdersPage` resolves `undefined` when any of its four queries
rejects, returns the enriched flattening when all fulfil well-shaped
payloads, but throws when a fulfilled payload is malformed (the flatten
is outside any `try`); `getOpenOrders` rejects when the initial
transaction-details lookup rejects and throws when that lookup fulfils
with a malformed payload (the `await` on line 409 has no `try`/`catch`),
and with a well-shaped initial payload it never errors as long as its
page calls do not. -/
theorem error_boundary_amended :
    (∀ nt st,
      getCurrenciesResolve nt st .reject = ({ st with gettingCurrencies := false }, none)
      ∧ getCurrenciesResolve nt st .processingError
          = ({ st with gettingCurrencies := false }, none))
    ∧ (∀ gp st,
      getMarketsResolve gp st .reject = ({ st with gettingMarkets := false }, none)
      ∧ getMarketsResolve gp st .processingError = ({ st with gettingMarkets := false }, none))
    ∧ (∀ nonzero, getBalances .reject nonzero = .ok none)
    ∧ (∀ data nonzero, (data.filter (fun w => w.walletType == "spot")).head? = none →
        getBalances (.ok data) nonzero = .error .typeError)
    ∧ (∀ data w nonzero, (data.filter (fun w => w.walletType == "spot")).head? = some w →
        ∃ v, getBalances (.ok data) nonzero = .ok v)
    ∧ (∀ pair ub us cb cs tx,
        (ub.isReject || us.isReject || cb.isReject || cs.isReject) = true →
        getOpenOrdersPage pair ub us cb cs tx = .ok none)
    ∧ (∀ pair a b c d tx,
        getOpenOrdersPage pair (.ok a) (.ok b) (.ok c) (.ok d) tx
          = .ok (allSome ((a ++ b ++ c ++ d).map (enrichOrder pair tx))))
    ∧ (∀ pairStr page fuel,
        getOpenOrders pairStr .reject page fuel = some (.error .propagatedRejection))
    ∧ (∀ pairStr d page fuel r, (∀ n e, page n ≠ .error e) →
        getOpenOrders pairStr (.ok d) page fuel = some r → ∃ v, r = .ok v)
    ∧ (∀ pair ub us cb cs tx,
        (ub.isReject || us.isReject || cb.isReject || cs.isReject) = false →
        (ub.isMalformed || us.isMalformed || cb.isMalformed || cs.isMalformed) = true →
        getOpenOrdersPage pair ub us cb cs tx = .error .typeError)
    ∧ (∀ pairStr page fuel,
        getOpenOrders pairStr .malformed page fuel = some (.error .typeError)) := by
  refine ⟨?_, ?_, ?_, ?_, ?_, ?_, ?_, ?_, ?_, ?_, ?_⟩
  · intro nt st
    exact ⟨rfl, rfl⟩
  · intro gp st
    exact ⟨rfl, rfl⟩
  · intro nonzero
    rfl
  · intro data nonzero h
    simp [getBalances, h]
  · intro data w nonzero h
    simp only [getBalances, h]
    cases hl : w.list with
    | none => exact ⟨none, rfl⟩
    | some spotWallet =>
      cases nonzero with
      | false => exact ⟨_, rfl⟩
      | true => exact ⟨_, rfl⟩
  · intro pair ub us cb cs tx h
    simp [getOpenOrdersPage, h]
  · intro pair a b c d tx
    rfl
  · intro pairStr page fuel
    rfl
  · intro pairStr d page fuel r hpage h
    exact getOpenOrdersLoop_no_error page d.total hpage fuel 1 [] 0 r h
  · intro pair ub us cb cs tx h1 h2
    cases ub <;> cases us <;> cases cb <;> cases cs <;>
      simp_all [getOpenOrdersPage, OrdersResp.isReject, OrdersResp.isMalformed]
  · intro pairStr page fuel
    rfl

/-- Counterexample to claim C1 as stated: with a fulfilled wallet list
containing no `spot` partition, `getBalances` does not resolve to
`undefined` — the `.list` access on `undefined` throws and the operation
rejects. -/
theorem getBalances_no_spot_throws_counterexample :
    getBalances (.ok [{ walletType := "margin", list := some [] }]) true
      = .error .typeError := rfl

/-- Witness for C1: an empty wallet list (hence no spot partition)
makes `getBalances` reject. -/
theorem error_boundary_witness :
    getBalances (.ok []) true = .error JsError.typeError :=
  error_boundary_amended.2.2.2.1 [] true rfl

/-! ### C3 (confirmed) -/

/-- Claim C3: `getOpenOrders` calls `getOpenOrdersPage` sequentially for
`pageNum = 1, 2, 3, …`, concatenating each page, and stops as soon as the
accumulated count reaches the vendor total; a page resolving `undefined`
makes the whole call resolve `undefined` immediately, discarding the
accumulation; in the concrete scenario `total = 650` with every page
returning 500 orders, exactly 2 page calls are issued and 1000 order
records are returned (for any sufficient fuel). -/
theorem getOpenOrders_pagination_loop :
    (∀ page limit fuel pageNum acc calls, page pageNum = .ok none →
      getOpenOrdersLoop page limit (fuel + 1) pageNum acc calls
        = some (.ok (none, calls + 1)))
    ∧ (∀ page limit fuel pageNum acc calls o, page pageNum = .ok (some o) →
      limit ≤ (acc ++ o).length →
      getOpenOrdersLoop page limit (fuel + 1) pageNum acc calls
        = some (.ok (some (acc ++ o), calls + 1)))
    ∧ (∀ page limit fuel pageNum acc calls o, page pageNum = .ok (some o) →
      (acc ++ o).length < limit →
      getOpenOrdersLoop page limit (fuel + 1) pageNum acc calls
        = getOpenOrdersLoop page limit fuel (pageNum + 1) (acc ++ o) (calls + 1))
    ∧ (∀ fuel : Nat,
      getOpenOrders "BTC/USDT" (.ok { total := 650, trades := [] })
        (fun _ => .ok (some (List.replicate 500 demoOrder))) (fuel + 2)
        = some (.ok (some (List.replicate 1000 demoOrder), 2))) := by
  refine ⟨?_, ?_, ?_, ?_⟩
  · intro page limit fuel pageNum acc calls h
    simp only [getOpenOrdersLoop, h]
  · intro page limit fuel pageNum acc calls o h h2
    simp only [getOpenOrdersLoop, h]
    rw [if_neg (not_lt.mpr h2)]
  · intro page limit fuel pageNum acc calls o h h2
    simp only [getOpenOrdersLoop, h]
    rw [if_pos h2]
  · intro fuel
    simp only [getOpenOrders]
    rw [getOpenOrdersLoop]
    simp only [List.nil_append, List.length_replicate]
    rw [if_pos (by norm_num)]
    rw [getOpenOrdersLoop]
    simp only [List.length_append, List.length_replicate]
    rw [if_neg (by norm_num)]
    rw [← List.replicate_add]

/-- Witness for C3: a page resolving `undefined` propagates immediately. -/
theorem getOpenOrders_pagination_witness :
    getOpenOrdersLoop (fun _ => .ok none) 650 (3 + 1) 1 [] 0 = some (.ok (none, 0 + 1)) :=
  getOpenOrders_pagination_loop.1 (fun _ => .ok none) 650 3 1 [] 0 rfl

/-! ### C9 (confirmed) -/

/-- Claim C9: the pagination loop is `do/while`, so at least one page is
always fetched before the count check; with vendor `total = 0`, one page
call is made and that first page is returned as-is (possibly
non-empty) rather than an empty list. -/
theorem getOpenOrders_do_while_first_page :
    ∀ (pairStr : String) (trades : List Trade)
      (page : Nat → Except JsError (Option (List Order))) (fuel : Nat) (o : List Order),
      page 1 = .ok (some o) →
      getOpenOrders pairStr (.ok { total := 0, trades := trades }) page (fuel + 1)
        = some (.ok (some o, 1)) := by
  intro pairStr trades page fuel o h
  simp only [getOpenOrders]
  simp only [getOpenOrdersLoop, h]
  simp

/-- Witness for C9 at a concrete non-empty first page with total 0. -/
theorem do_while_witness :
    getOpenOrders "BTC/USDT" (.ok { total := 0, trades := [] })
      (fun _ => .ok (some [demoOrder])) (4 + 1) = some (.ok (some [demoOrder], 1)) :=
  getOpenOrders_do_while_first_page "BTC/USDT" [] (fun _ => .ok (some [demoOrder])) 4
    [demoOrder] rfl

/-! ### C6 (confirmed) -/

/-- Claim C6: a successful `getOpenOrdersPage` returns exactly the
concatenation, in this fixed order, of the enriched uncompleted-buy,
uncompleted-sell, completed-or-cancelled-buy and
completed-or-cancelled-sell query results, each sub-list kept in
vendor-returned order. -/
theorem getOpenOrdersPage_concat_order :
    ∀ pair ub us cb cs tx la lb lc ld,
      allSome (ub.map (enrichOrder pair tx)) = some la →
      allSome (us.map (enrichOrder pair tx)) = some lb →
      allSome (cb.map (enrichOrder pair tx)) = some lc →
      allSome (cs.map (enrichOrder pair tx)) = some ld →
      getOpenOrdersPage pair (.ok ub) (.ok us) (.ok cb) (.ok cs) tx
        = .ok (some (la ++ lb ++ lc ++ ld)) := by
  intro pair ub us cb cs tx la lb lc ld ha hb hc hd
  have h := allSome_append _ _ _ _ (allSome_append _ _ _ _ (allSome_append _ _ _ _ ha hb) hc) hd
  simp only [getOpenOrdersPage, OrdersResp.isReject, Bool.or_self, Bool.or_false]
  rw [show ((ub ++ us ++ cb ++ cs).map (enrichOrder pair tx))
      = (ub.map (enrichOrder pair tx) ++ us.map (enrichOrder pair tx)
          ++ cb.map (enrichOrder pair tx) ++ cs.map (enrichOrder pair tx)) by
    simp [List.map_append]]
  rw [h]
  rfl

/-- Witness for C6 at a concrete one-order page. -/
theorem concat_order_witness :
    getOpenOrdersPage pairW (.ok [rawW]) (.ok []) (.ok []) (.ok []) txW
      = .ok (some ([ordW] ++ [] ++ [] ++ [])) :=
  getOpenOrdersPage_concat_order pairW [rawW] [] [] [] txW [ordW] [] [] []
    rfl rfl rfl rfl

/-! ### C8 (confirmed) -/

/-- Claim C8: every order record produced by `getOpenOrdersPage` has
`amountLeft = amountExecuted - amount`, i.e. exactly the vendor
`filledAmount` minus the vendor `money` value of its raw order; the
formula is preserved verbatim, so `amountLeft` is negative whenever the
order is not fully filled (`amountExecuted < amount`). -/
theorem order_amountLeft_formula :
    ∀ pair ub us cb cs tx l,
      getOpenOrdersPage pair (.ok ub) (.ok us) (.ok cb) (.ok cs) tx = .ok (some l) →
      ∀ o ∈ l,
        o.amountLeft = o.amountExecuted - o.amount
        ∧ (∃ raw : RawOrder, enrichOrder pair tx raw = some o
            ∧ o.amount = raw.money ∧ o.amountExecuted = raw.filledAmount
            ∧ o.amountLeft = raw.filledAmount - raw.money)
        ∧ (o.amountExecuted < o.amount → o.amountLeft < 0) := by
  intro pair ub us cb cs tx l hpage o ho
  have hall : allSome ((ub ++ us ++ cb ++ cs).map (enrichOrder pair tx)) = some l := by
    simpa [getOpenOrdersPage, OrdersResp.isReject] using hpage
  have hmem : some o ∈ (ub ++ us ++ cb ++ cs).map (enrichOrder pair tx) :=
    allSome_mem hall o ho
  obtain ⟨raw, _hraw, henrich⟩ := List.mem_map.mp hmem
  have hfields : o.amount = raw.money ∧ o.amountExecuted = raw.filledAmount
      ∧ o.amountLeft = raw.filledAmount - raw.money := by
    cases htx : tx raw.orderId with
    | reject => rw [enrichOrder, htx] at henrich; cases henrich
    | malformed => rw [enrichOrder, htx] at henrich; cases henrich
    | ok d =>
      rw [enrichOrder, htx] at henrich
      dsimp only at henrich
      cases hh : d.trades.head? with
      | none =>
        rw [hh] at henrich
        simp at henrich
      | some t =>
        rw [hh] at henrich
        dsimp only at henrich
        obtain rfl := Option.some.inj henrich
        exact ⟨rfl, rfl, rfl⟩
  obtain ⟨h1, h2, h3⟩ := hfields
  refine ⟨by rw [h1, h2, h3], ⟨raw, henrich, h1, h2, h3⟩, ?_⟩
  intro hlt
  rw [h3]
  rw [h1, h2] at hlt
  omega

/-- Witness for C8 at the concrete enriched order. -/
theorem amountLeft_witness : ordW.amountLeft = ordW.amountExecuted - ordW.amount :=
  (order_amountLeft_formula pairW [rawW] [] [] [] txW [ordW] rfl ordW
    (List.mem_singleton.mpr rfl)).1

end TraderFameex
